import Mathlib

/-!
Verification of the organization-management service (src/main.py) against its
natural-language specification.

The embedding models the FastAPI handlers as pure functions over an explicit
database state.  MongoDB is modelled as:
  * a list of organization records (the master "organizations" collection,
    insert_one appends, find_one takes the first match in insertion order),
  * a list of admin records (the "admins" collection),
  * a partial map from collection name to document list (the dynamically
    named per-organization collections; a name mapped to none is a collection
    that does not exist; reading an absent collection yields the empty list,
    exactly as a Mongo find() on a missing collection does).

Time is passed explicitly as a natural number of seconds (datetime.utcnow()).
The bcrypt primitive of passlib and the HS256 signing of python-jose are
external libraries (out of scope per the spec); they are modelled by a
deterministic injective hash and by a constructor carrying the signing key,
which preserves exactly the success/failure behaviour the handlers observe.
-/

namespace OrgService

/-- A document stored in a per-organization collection.  The service itself
only ever writes the initialization marker (main.py lines 203 to 207); the
opaque constructor stands for records written into a partition out of band,
which the rename path must migrate unmodified. -/
inductive Doc where
  | init (created_at : Nat)
  | stored (payload : Nat)
deriving DecidableEq, Repr

/-- One record of the master organizations collection (main.py lines 172 to
178) together with its Mongo object id (modelled as a natural number drawn
from a fresh counter). -/
structure OrgRecord where
  oid : Nat
  organization_name : String
  collection_name : String
  created_at : Nat
  updated_at : Nat
  status : String
deriving DecidableEq, Repr

/-- One record of the master admins collection (main.py lines 188 to 195).
The password field stores the bcrypt hash, never the plain text. -/
structure AdminRecord where
  email : String
  password : String
  organization_id : Nat
  organization_name : String
  role : String
  created_at : Nat
deriving DecidableEq, Repr

/-- The whole mutable store: the two master collections, the dynamically
named per-organization collections, and the object-id counter. -/
structure DBState where
  organizations : List OrgRecord
  admins : List AdminRecord
  collections : String → Option (List Doc)
  nextId : Nat

/-- The state of a freshly started service: no organizations, no admins, no
dynamic collections. -/
def emptyDB : DBState where
  organizations := []
  admins := []
  collections := fun _ => none
  nextId := 1

/-- Reading the full contents of a collection (find().to_list()); a missing
collection reads as empty, as in Mongo. -/
def getColl (db : DBState) (n : String) : List Doc :=
  (db.collections n).getD []

/-- insert_many into a dynamic collection: appends the documents, creating
the collection if it did not exist (Mongo creates collections on first
insert). -/
def insertDocs (db : DBState) (n : String) (ds : List Doc) : DBState :=
  { db with collections := fun m => if m = n then some (getColl db n ++ ds) else db.collections m }

/-- collection.drop(): removes the collection and all of its contents; a
no-op on an absent collection. -/
def dropColl (db : DBState) (n : String) : DBState :=
  { db with collections := fun m => if m = n then none else db.collections m }

/-- update_one semantics: rewrite the first element satisfying the filter,
leave everything else alone. -/
def updateFirst (p : α → Bool) (f : α → α) : List α → List α
  | [] => []
  | x :: xs => if p x then f x :: xs else x :: updateFirst p f xs

/-- delete_one semantics: remove the first element satisfying the filter. -/
def eraseFirst (p : α → Bool) : List α → List α
  | [] => []
  | x :: xs => if p x then xs else x :: eraseFirst p xs

/-- Run a list of state transformers left to right (the sequence of awaited
store mutations of a handler). -/
def applySteps (fs : List (DBState → DBState)) (s : DBState) : DBState :=
  fs.foldl (fun st f => f st) s

/-- A failure surfaced by a handler: either an HTTPException carrying a
status code and a human-readable detail string, or the uncaught Python
TypeError raised by subscripting the None returned from a failed find_one
(main.py line 347 when the admin lookup at line 346 misses). -/
inductive PyError where
  | http (status : Nat) (detail : String)
  | noneTypeSubscript (key : String)
deriving DecidableEq, Repr

/-- Configuration constant SECRET_KEY (main.py line 17). -/
def SECRET_KEY : String := "anylongstring"

/-- Configuration constant ACCESS_TOKEN_EXPIRE_MINUTES (main.py line 19). -/
def ACCESS_TOKEN_EXPIRE_MINUTES : Nat := 30

/-- Model of the external passlib bcrypt hash (main.py lines 83 to 85): an
injective one-way function on the observable level of the handlers. -/
def hash_password (password : String) : String :=
  "bcrypt$" ++ password

/-- Model of passlib verify (main.py lines 88 to 90): succeeds exactly on
the password whose hash is stored. -/
def verify_password (plain_password : String) (hashed_password : String) : Bool :=
  hash_password plain_password == hashed_password

/-- The claims dictionary passed to create_access_token (every field
optional, matching a Python dict). -/
structure ClaimsData where
  sub : Option String
  org_id : Option Nat
  org_name : Option String
  role : Option String
deriving DecidableEq, Repr

/-- A decoded JWT payload: the claims plus the exp timestamp added by
create_access_token. -/
structure Payload where
  sub : Option String
  org_id : Option Nat
  org_name : Option String
  role : Option String
  exp : Nat
deriving DecidableEq, Repr

/-- A bearer token as presented by the client: either not a well-formed JWT
at all, or a payload signed under some key. -/
inductive RawToken where
  | malformed
  | signed (payload : Payload) (key : String)
deriving DecidableEq, Repr

/-- The two exception kinds of python-jose decode: ExpiredSignatureError and
the generic JWTError (malformed token or bad signature). -/
inductive JoseError where
  | expiredSignature
  | jwtError
deriving DecidableEq, Repr

/-- Model of jose jwt.decode: signature first (wrong key or malformed input
raise JWTError), then expiry (jose raises ExpiredSignatureError when the exp
claim is strictly below the current time). -/
def jwt_decode (secret : String) (token : RawToken) (now : Nat) : Except JoseError Payload :=
  match token with
  | .malformed => .error .jwtError
  | .signed p key =>
    if key = secret then
      if p.exp < now then .error .expiredSignature else .ok p
    else .error .jwtError

/-- Python truthiness of the optional timedelta argument: None is falsy and
so is timedelta(0); every non-zero duration is truthy. -/
def timedeltaTruthy : Option Nat → Bool
  | none => false
  | some d => d != 0

/-- create_access_token (main.py lines 93 to 102): copies the claims and
signs with SECRET_KEY.  The source guards the supplied delta with the
Python truthiness test at line 96 (if expires_delta:), so a missing delta
and a supplied zero delta both fall to the 15-minute default; a non-zero
delta gives exp = now + delta.  Durations are in seconds. -/
def create_access_token (data : ClaimsData) (expires_delta : Option Nat) (now : Nat) : RawToken :=
  let expire :=
    if timedeltaTruthy expires_delta then now + expires_delta.getD 0
    else now + 15 * 60
  .signed ⟨data.sub, data.org_id, data.org_name, data.role, expire⟩ SECRET_KEY

/-- Python str.lower, modelled as the per-character lower-casing map (this
is extensionally String.toLower, written over the character list so that it
evaluates inside the kernel). -/
def pyLower (s : String) : String :=
  ⟨s.data.map Char.toLower⟩

/-- Python str.replace with a single-character pattern: the per-character
substitution. -/
def replaceChar (s : String) (c r : Char) : String :=
  ⟨s.data.map fun x => if x = c then r else x⟩

/-- sanitize_collection_name (main.py lines 105 to 107): lower-case, replace
every space with an underscore, then every hyphen with an underscore, and
prefix with the literal tag. -/
def sanitize_collection_name (name : String) : String :=
  "org_" ++ replaceChar (replaceChar (pyLower name) ' ' '_') '-' '_'

/-- The identity returned by the get_current_admin dependency (main.py line
122): only the sub and org_id claims are kept. -/
structure CurrentAdmin where
  email : String
  org_id : Nat
deriving DecidableEq, Repr

/-- get_current_admin (main.py lines 110 to 132): decode the bearer token,
mapping ExpiredSignatureError and JWTError to their two distinct 401
responses; on a decoded payload, require the sub and org_id claims and fail
with a third 401 message if either is missing. -/
def get_current_admin (token : RawToken) (now : Nat) : Except PyError CurrentAdmin :=
  match jwt_decode SECRET_KEY token now with
  | .ok payload =>
    match payload.sub, payload.org_id with
    | some email, some org_id => .ok ⟨email, org_id⟩
    | some _, none => .error (.http 401 "Invalid authentication credentials")
    | none, _ => .error (.http 401 "Invalid authentication credentials")
  | .error .expiredSignature => .error (.http 401 "Token has expired")
  | .error .jwtError => .error (.http 401 "Could not validate credentials")

/-- Success payload of POST /org/create (main.py lines 209 to 215). -/
structure CreateResp where
  organization_id : Nat
  organization_name : String
  collection_name : String
  admin_email : String
deriving DecidableEq, Repr

/-- create_organization (main.py lines 146 to 215).  Request validation
(name length 3 to 50, password length at least 8) happens in pydantic before
the handler runs and is not modelled.  On an error the state is returned
unchanged; the mutations run in source order: insert the organization
record, insert the admin record, insert the initialization marker into the
fresh dynamic collection. -/
def create_organization (db : DBState) (organization_name email password : String)
    (now : Nat) : DBState × Except PyError CreateResp :=
  if (db.organizations.find? (·.organization_name == organization_name)).isSome then
    (db, .error (.http 400 "Organization name already exists"))
  else if (db.admins.find? (·.email == email)).isSome then
    (db, .error (.http 400 "Admin email already exists"))
  else
    let collection_name := sanitize_collection_name organization_name
    let org_id := db.nextId
    let org_document : OrgRecord :=
      ⟨org_id, organization_name, collection_name, now, now, "active"⟩
    let admin_document : AdminRecord :=
      ⟨email, hash_password password, org_id, organization_name, "admin", now⟩
    let db1 : DBState :=
      { db with organizations := db.organizations ++ [org_document], nextId := db.nextId + 1 }
    let db2 : DBState := { db1 with admins := db1.admins ++ [admin_document] }
    let db3 := insertDocs db2 collection_name [Doc.init now]
    (db3, .ok ⟨org_id, organization_name, collection_name, email⟩)

/-- Success payload of PUT /org/update (main.py lines 319 to 324). -/
structure UpdateResp where
  old_name : String
  new_name : String
  new_collection_name : String
deriving DecidableEq, Repr

/-- The four awaited store mutations of update_organization after all checks
have passed (main.py lines 288 to 317), in source order: copy the documents
read from the old collection into the new collection (the insert is skipped
when the read returned nothing), update the organization record, update the
admin record, drop the old collection.  The document list is read from the
pre-mutation state, as in the source, where the read at line 293 precedes
every write. -/
def update_mutations (db : DBState) (existing_org : OrgRecord)
    (organization_name new_organization_name email : String) (now : Nat) :
    List (DBState → DBState) :=
  let old_collection_name := existing_org.collection_name
  let new_collection_name := sanitize_collection_name new_organization_name
  let documents := getColl db old_collection_name
  let renameOrg : OrgRecord → OrgRecord := fun o =>
    { o with organization_name := new_organization_name, collection_name := new_collection_name, updated_at := now }
  let renameAdmin : AdminRecord → AdminRecord := fun a =>
    { a with organization_name := new_organization_name }
  [ fun s => if documents.isEmpty then s else insertDocs s new_collection_name documents,
    fun s => { s with organizations := updateFirst (fun o => o.organization_name == organization_name) renameOrg s.organizations },
    fun s => { s with admins := updateFirst (fun a => a.email == email) renameAdmin s.admins },
    fun s => dropColl s old_collection_name ]

/-- update_organization (main.py lines 244 to 324), instrumented with a
crash point: after the checks pass, only the first k of the four awaited
mutations are applied, modelling a failure between store writes; k = 4 is
the complete run and the response field is meaningful only there.  The
checks are, in source order: 404 if the organization is missing, 403 if the
admin is missing or belongs to another organization (one merged condition at
line 261), 403 if the password does not verify, 400 if the new name differs
from the old and is already registered. -/
def update_organization_run (db : DBState)
    (organization_name new_organization_name email password : String)
    (now : Nat) (k : Nat) : DBState × Except PyError UpdateResp :=
  match db.organizations.find? (·.organization_name == organization_name) with
  | none => (db, .error (.http 404 "Organization not found"))
  | some existing_org =>
    match db.admins.find? (·.email == email) with
    | none => (db, .error (.http 403 "Unauthorized: Invalid admin credentials"))
    | some admin =>
      if admin.organization_name ≠ organization_name then
        (db, .error (.http 403 "Unauthorized: Invalid admin credentials"))
      else if verify_password password admin.password = false then
        (db, .error (.http 403 "Unauthorized: Invalid password"))
      else if new_organization_name ≠ organization_name ∧
          (db.organizations.find? (·.organization_name == new_organization_name)).isSome then
        (db, .error (.http 400 "New organization name already exists"))
      else
        (applySteps
          ((update_mutations db existing_org organization_name new_organization_name
             email now).take k) db,
         .ok ⟨organization_name, new_organization_name,
              sanitize_collection_name new_organization_name⟩)

/-- The PUT /org/update handler itself: all four mutations run. -/
def update_organization (db : DBState)
    (organization_name new_organization_name email password : String)
    (now : Nat) : DBState × Except PyError UpdateResp :=
  update_organization_run db organization_name new_organization_name email password now 4

/-- delete_organization (main.py lines 327 to 370).  The response payload is
the deleted organization name.  When the admin lookup at line 346 returns
None, line 347 subscripts it and the handler dies with a TypeError before
any store mutation; mutations on the success path run in source order: drop
the dynamic collection, delete the organization record, delete every admin
record carrying the organization name. -/
def delete_organization (db : DBState) (organization_name : String)
    (current_admin : CurrentAdmin) : DBState × Except PyError String :=
  match db.organizations.find? (·.organization_name == organization_name) with
  | none => (db, .error (.http 404 "Organization not found"))
  | some organization =>
    match db.admins.find? (·.email == current_admin.email) with
    | none => (db, .error (.noneTypeSubscript "organization_name"))
    | some admin =>
      if admin.organization_name ≠ organization_name then
        (db, .error (.http 403 "Unauthorized: You can only delete your own organization"))
      else
        let db1 := dropColl db organization.collection_name
        let db2 : DBState :=
          { db1 with organizations := eraseFirst (fun o => o.organization_name == organization_name) db1.organizations }
        let db3 : DBState :=
          { db2 with admins := db2.admins.filter (fun a => a.organization_name != organization_name) }
        (db3, .ok organization_name)

/-- The DELETE /org/delete endpoint: the get_current_admin dependency runs
first; its failure is returned without touching the handler. -/
def delete_endpoint (db : DBState) (organization_name : String) (token : RawToken)
    (now : Nat) : DBState × Except PyError String :=
  match get_current_admin token now with
  | .error e => (db, .error e)
  | .ok current_admin => delete_organization db organization_name current_admin

/-- Success payload of POST /admin/login (main.py lines 405 to 408). -/
structure LoginResp where
  access_token : RawToken
  token_type : String
deriving DecidableEq, Repr

/-- admin_login (main.py lines 373 to 408): the same 401 status and detail
for an unknown email and for a failed password check; on success a token
with claims sub, org_id, org_name, role drawn from the admin record and a
ttl of ACCESS_TOKEN_EXPIRE_MINUTES. -/
def admin_login (db : DBState) (email password : String) (now : Nat) :
    Except PyError LoginResp :=
  match db.admins.find? (·.email == email) with
  | none => .error (.http 401 "Invalid email or password")
  | some admin =>
    if verify_password password admin.password = false then
      .error (.http 401 "Invalid email or password")
    else
      .ok ⟨create_access_token
             ⟨some admin.email, some admin.organization_id,
              some admin.organization_name, some admin.role⟩
             (some (ACCESS_TOKEN_EXPIRE_MINUTES * 60)) now,
           "bearer"⟩

/-- The partition-naming rule in the words of the specification: lower-case
the organization name, replace each space and each hyphen with an
underscore, prefix with the fixed literal tag.  Stated as one combined
per-character substitution, to be compared with the two sequential
replacements the source performs. -/
def partition_name_spec (name : String) : String :=
  "org_" ++ ⟨(pyLower name).data.map fun c => if c = ' ' ∨ c = '-' then '_' else c⟩

/-- The store after a create of organization Acme Corp at time 0, used as a
concrete scenario input. -/
def dbAcme : DBState :=
  (create_organization emptyDB "Acme Corp" "a@x.com" "password123" 0).1

/-- The store after creating Acme Corp at time 0 and then Beta at time 1. -/
def dbAcmeBeta : DBState :=
  (create_organization dbAcme "Beta" "b@x.com" "password456" 1).1

/-- The claimed state invariant: every admin record carries the current name
of the organization record it references through organization_id. -/
def AdminOrgSync (db : DBState) : Prop :=
  ∀ a ∈ db.admins, ∃ o ∈ db.organizations,
    o.oid = a.organization_id ∧ o.organization_name = a.organization_name

/-- The reachable-state invariant of the master store: unique organization
names (the unique index of main.py line 415), unique organization object
ids, object ids below the fresh counter, unique admin emails (the unique
index of main.py line 416), unique admin organization names (one admin per
organization), and the admin-organization name sync. -/
def GoodState (db : DBState) : Prop :=
  (db.organizations.map (fun o => o.organization_name)).Nodup ∧
  (db.organizations.map (fun o => o.oid)).Nodup ∧
  (∀ o ∈ db.organizations, o.oid < db.nextId) ∧
  (db.admins.map (fun a => a.email)).Nodup ∧
  (db.admins.map (fun a => a.organization_name)).Nodup ∧
  AdminOrgSync db

theorem find?_decomp {α : Type} {p : α → Bool} {l : List α} {a : α}
    (h : l.find? p = some a) :
    ∃ l1 l2, l = l1 ++ a :: l2 ∧ ∀ x ∈ l1, p x = false := by
  induction l with
  | nil => simp at h
  | cons x xs ih =>
    cases hx : p x with
    | true =>
      simp only [List.find?, hx] at h
      obtain rfl : x = a := by injection h
      exact ⟨[], xs, rfl, by simp⟩
    | false =>
      simp only [List.find?, hx] at h
      obtain ⟨l1, l2, rfl, hl1⟩ := ih h
      refine ⟨x :: l1, l2, rfl, ?_⟩
      intro y hy
      rcases List.mem_cons.mp hy with rfl | hy
      · exact hx
      · exact hl1 y hy

theorem updateFirst_append {α : Type} {p : α → Bool} (f : α → α) (l1 : List α)
    (a : α) (l2 : List α) (h1 : ∀ x ∈ l1, p x = false) (h2 : p a = true) :
    updateFirst p f (l1 ++ a :: l2) = l1 ++ f a :: l2 := by
  induction l1 with
  | nil => simp [updateFirst, h2]
  | cons x xs ih =>
    have hx : p x = false := h1 x (by simp)
    have ih2 := ih (fun y hy => h1 y (by simp [hy]))
    simp [updateFirst, hx, ih2]

theorem eraseFirst_append {α : Type} {p : α → Bool} (l1 : List α) (a : α)
    (l2 : List α) (h1 : ∀ x ∈ l1, p x = false) (h2 : p a = true) :
    eraseFirst p (l1 ++ a :: l2) = l1 ++ l2 := by
  induction l1 with
  | nil => simp [eraseFirst, h2]
  | cons x xs ih =>
    have hx : p x = false := h1 x (by simp)
    have ih2 := ih (fun y hy => h1 y (by simp [hy]))
    simp [eraseFirst, hx, ih2]

theorem map_updateFirst {α β : Type} {p : α → Bool} {f : α → α} (g : α → β)
    (hg : ∀ x, g (f x) = g x) (l : List α) :
    (updateFirst p f l).map g = l.map g := by
  induction l with
  | nil => rfl
  | cons x xs ih =>
    by_cases hx : p x = true
    · simp [updateFirst, hx, hg]
    · simp only [Bool.not_eq_true] at hx
      simp [updateFirst, hx, ih]

theorem nodup_map_inj {α β : Type} {g : α → β} {l : List α}
    (h : (l.map g).Nodup) :
    ∀ x ∈ l, ∀ y ∈ l, g x = g y → x = y := by
  induction l with
  | nil => simp
  | cons z zs ih =>
    simp only [List.map_cons, List.nodup_cons] at h
    obtain ⟨hz, hzs⟩ := h
    intro x hx y hy hxy
    rcases List.mem_cons.mp hx with hx1 | hx1 <;> rcases List.mem_cons.mp hy with hy1 | hy1
    · rw [hx1, hy1]
    · exfalso; apply hz; rw [← hx1, hxy]; exact List.mem_map_of_mem g hy1
    · exfalso; apply hz; rw [← hy1, ← hxy]; exact List.mem_map_of_mem g hx1
    · exact ih hzs x hx1 y hy1 hxy

/-- Inversion of a successful run of the update handler: all of the checks
passed and the final state is the crash-prefix of the mutation list. -/
theorem update_ok_inv {db : DBState} {oldn nn e pw : String} {now k : Nat}
    {db' : DBState} {r : UpdateResp}
    (h : update_organization_run db oldn nn e pw now k = (db', .ok r)) :
    ∃ o a, db.organizations.find? (fun x => x.organization_name == oldn) = some o ∧
      db.admins.find? (fun x => x.email == e) = some a ∧
      a.organization_name = oldn ∧
      verify_password pw a.password = true ∧
      (nn = oldn ∨ db.organizations.find? (fun x => x.organization_name == nn) = none) ∧
      db' = applySteps ((update_mutations db o oldn nn e now).take k) db ∧
      r = ⟨oldn, nn, sanitize_collection_name nn⟩ := by
  unfold update_organization_run at h
  cases h1 : db.organizations.find? (fun x => x.organization_name == oldn) with
  | none => rw [h1] at h; simp at h
  | some o =>
    rw [h1] at h
    cases h2 : db.admins.find? (fun x => x.email == e) with
    | none => rw [h2] at h; simp at h
    | some a =>
      rw [h2] at h
      simp only [] at h
      split_ifs at h with h3 h4 h5
      · simp at h
      · simp at h
      · simp at h
      · rw [Prod.ext_iff] at h
        obtain ⟨hdb, hr⟩ := h
        simp only [Except.ok.injEq] at hr
        refine ⟨o, a, rfl, rfl, not_not.mp h3, ?_, ?_, hdb.symm, hr.symm⟩
        · cases hv : verify_password pw a.password with
          | true => rfl
          | false => exact absurd hv h4
        · rcases not_and_or.mp h5 with h5 | h5
          · exact Or.inl (not_not.mp h5)
          · exact Or.inr (Option.not_isSome_iff_eq_none.mp h5)

theorem replace_replace_data (l : List Char) :
    ((l.map fun x => if x = ' ' then '_' else x).map fun x => if x = '-' then '_' else x)
      = l.map fun c => if c = ' ' ∨ c = '-' then '_' else c := by
  rw [List.map_map]
  congr 1
  funext c
  by_cases h1 : c = ' '
  · simp [h1, Function.comp]
  · by_cases h2 : c = '-' <;> simp [Function.comp, h1, h2]

/-- Inversion of a successful create: both uniqueness pre-checks passed and
the final state is the three inserts applied in order. -/
theorem create_ok_inv {db : DBState} {n e pw : String} {now : Nat}
    {db' : DBState} {r : CreateResp}
    (h : create_organization db n e pw now = (db', .ok r)) :
    db.organizations.find? (fun x => x.organization_name == n) = none ∧
    db.admins.find? (fun x => x.email == e) = none ∧
    db' = insertDocs
      { db with
          organizations := db.organizations ++ [(⟨db.nextId, n, sanitize_collection_name n, now, now, "active"⟩ : OrgRecord)],
          admins := db.admins ++ [(⟨e, hash_password pw, db.nextId, n, "admin", now⟩ : AdminRecord)],
          nextId := db.nextId + 1 }
      (sanitize_collection_name n) [Doc.init now] ∧
    r = ⟨db.nextId, n, sanitize_collection_name n, e⟩ := by
  unfold create_organization at h
  split_ifs at h with h1 h2
  · simp at h
  · simp at h
  · rw [Prod.ext_iff] at h
    obtain ⟨hdb, hr⟩ := h
    simp only [Except.ok.injEq] at hr
    exact ⟨Option.not_isSome_iff_eq_none.mp h1, Option.not_isSome_iff_eq_none.mp h2,
      hdb.symm, hr.symm⟩

/-- C4: the derived partition name is the organization name lower-cased with
every space and every hyphen replaced by an underscore, prefixed with the
literal tag (Acme Corp becomes org_acme_corp), and both the create handler
and the rename handler derive partition names through exactly this
transform. -/
theorem C4_partition_naming :
    (∀ name, sanitize_collection_name name = partition_name_spec name) ∧
    sanitize_collection_name "Acme Corp" = "org_acme_corp" ∧
    (∀ db n e pw now db' r, create_organization db n e pw now = (db', .ok r) →
       r.collection_name = sanitize_collection_name n ∧
       ∃ o ∈ db'.organizations, o.organization_name = n ∧
         o.collection_name = sanitize_collection_name n) ∧
    (∀ db oldn nn e pw now db' r, update_organization db oldn nn e pw now = (db', .ok r) →
       r.new_collection_name = sanitize_collection_name nn) := by
  refine ⟨?_, by decide, ?_, ?_⟩
  · intro name
    show ("org_" : String) ++
        ⟨((pyLower name).data.map fun x => if x = ' ' then '_' else x).map
          fun x => if x = '-' then '_' else x⟩ =
      ("org_" : String) ++ ⟨(pyLower name).data.map fun c => if c = ' ' ∨ c = '-' then '_' else c⟩
    rw [replace_replace_data]
  · intro db n e pw now db' r h
    obtain ⟨_, _, hdb, hr⟩ := create_ok_inv h
    refine ⟨by rw [hr], ⟨db.nextId, n, sanitize_collection_name n, now, now, "active"⟩, ?_, rfl, rfl⟩
    rw [hdb]
    simp [insertDocs]
  · intro db oldn nn e pw now db' r h
    obtain ⟨o, a, _, _, _, _, _, _, hr⟩ := update_ok_inv h
    rw [hr]

theorem C4_witness :
    (⟨1, "Acme Corp", "org_acme_corp", "a@x.com"⟩ : CreateResp).collection_name =
      sanitize_collection_name "Acme Corp" ∧
    ∃ o ∈ dbAcme.organizations, o.organization_name = "Acme Corp" ∧
      o.collection_name = sanitize_collection_name "Acme Corp" :=
  C4_partition_naming.2.2.1 emptyDB "Acme Corp" "a@x.com" "password123" 0 dbAcme
    ⟨1, "Acme Corp", "org_acme_corp", "a@x.com"⟩ rfl

/-- C6: a login whose email matches no admin and a login whose email matches
but whose password fails verification both produce the very same 401
response value, status and message included. -/
theorem C6_login_failures_indistinguishable (db : DBState) (email password : String)
    (now : Nat)
    (h : db.admins.find? (fun a => a.email == email) = none ∨
         ∃ a, db.admins.find? (fun a2 => a2.email == email) = some a ∧
           verify_password password a.password = false) :
    admin_login db email password now = .error (.http 401 "Invalid email or password") := by
  rcases h with h | ⟨a, ha, hv⟩
  · simp [admin_login, h]
  · simp [admin_login, ha, hv]

theorem C6_witness :
    admin_login emptyDB "a@x.com" "pw" 0 = .error (.http 401 "Invalid email or password") :=
  C6_login_failures_indistinguishable emptyDB "a@x.com" "pw" 0 (Or.inl rfl)

/-- C7: token validation yields the distinct expired failure exactly for a
well-signed token past its expiry; a malformed token, a token signed under a
wrong key, and a token missing the sub or the org_id claim all fail with a
non-expired 401; a token passing signature, expiry and both claim checks
yields its claims. -/
theorem C7_token_validation_kinds :
    (∀ now, get_current_admin .malformed now =
       .error (.http 401 "Could not validate credentials")) ∧
    (∀ p key now, key ≠ SECRET_KEY → get_current_admin (.signed p key) now =
       .error (.http 401 "Could not validate credentials")) ∧
    (∀ p now, p.exp < now → get_current_admin (.signed p SECRET_KEY) now =
       .error (.http 401 "Token has expired")) ∧
    (∀ p now, ¬ p.exp < now → (p.sub = none ∨ p.org_id = none) →
       get_current_admin (.signed p SECRET_KEY) now =
         .error (.http 401 "Invalid authentication credentials")) ∧
    (∀ e oid onm rl tokexp now, ¬ tokexp < now →
       get_current_admin (.signed ⟨some e, some oid, onm, rl, tokexp⟩ SECRET_KEY) now =
         .ok ⟨e, oid⟩) ∧
    ("Token has expired" ≠ "Could not validate credentials" ∧
     "Token has expired" ≠ "Invalid authentication credentials") := by
  refine ⟨fun now => rfl, ?_, ?_, ?_, ?_, by decide⟩
  · intro p key now hk
    simp [get_current_admin, jwt_decode, hk]
  · intro p now hexp
    simp [get_current_admin, jwt_decode, hexp]
  · intro p now hexp hmiss
    obtain ⟨s, oi, onm, rl, tokexp⟩ := p
    simp only at hexp hmiss
    rcases hmiss with h | h
    · subst h; simp [get_current_admin, jwt_decode, hexp]
    · subst h
      cases s <;> simp [get_current_admin, jwt_decode, hexp]
  · intro e oid onm rl tokexp now hexp
    simp [get_current_admin, jwt_decode, hexp]

theorem C7_witness :
    get_current_admin (.signed ⟨some "a@x.com", some 1, none, none, 50⟩ SECRET_KEY) 100 =
      .error (.http 401 "Token has expired") :=
  C7_token_validation_kinds.2.2.1 ⟨some "a@x.com", some 1, none, none, 50⟩ 100 (by decide)

/-- C8 as amended: create_access_token stamps exp = now + ttl when a
non-zero ttl is supplied; a supplied zero ttl is falsy under the Python
truthiness test of main.py line 96 and falls to the same 15-minute default
as a missing ttl; the login endpoint issues its token with the other
default, 30 minutes, and claims sub, org_id, org_name, role taken from the
admin record. -/
theorem C8_token_ttl_defaults :
    (∀ data d now, d ≠ 0 → create_access_token data (some d) now =
       .signed ⟨data.sub, data.org_id, data.org_name, data.role, now + d⟩ SECRET_KEY) ∧
    (∀ data now, create_access_token data (some 0) now =
       .signed ⟨data.sub, data.org_id, data.org_name, data.role, now + 15 * 60⟩ SECRET_KEY) ∧
    (∀ data now, create_access_token data none now =
       .signed ⟨data.sub, data.org_id, data.org_name, data.role, now + 15 * 60⟩ SECRET_KEY) ∧
    ACCESS_TOKEN_EXPIRE_MINUTES * 60 ≠ 15 * 60 ∧
    (∀ db email password now a,
       db.admins.find? (fun x => x.email == email) = some a →
       verify_password password a.password = true →
       admin_login db email password now =
         .ok ⟨.signed ⟨some a.email, some a.organization_id, some a.organization_name,
                some a.role, now + ACCESS_TOKEN_EXPIRE_MINUTES * 60⟩ SECRET_KEY, "bearer"⟩) := by
  refine ⟨?_, fun data now => rfl, fun data now => rfl, by decide, ?_⟩
  · intro data d now hd
    simp [create_access_token, timedeltaTruthy, hd]
  · intro db email password now a ha hv
    simp [admin_login, ha, hv, create_access_token, timedeltaTruthy, ACCESS_TOKEN_EXPIRE_MINUTES]

theorem C8_counterexample :
    create_access_token ⟨some "a@x.com", some 1, some "Acme Corp", some "admin"⟩ (some 0) 100 =
      .signed ⟨some "a@x.com", some 1, some "Acme Corp", some "admin", 100 + 15 * 60⟩ SECRET_KEY ∧
    (100 + 15 * 60 : Nat) ≠ 100 + 0 := by
  decide

theorem C8_witness :
    create_access_token ⟨some "a@x.com", some 1, some "Acme Corp", some "admin"⟩ (some 1800) 7 =
      .signed ⟨some "a@x.com", some 1, some "Acme Corp", some "admin", 7 + 1800⟩ SECRET_KEY ∧
    admin_login dbAcme "a@x.com" "password123" 7 =
      .ok ⟨.signed ⟨some "a@x.com", some 1, some "Acme Corp", some "admin",
             7 + ACCESS_TOKEN_EXPIRE_MINUTES * 60⟩ SECRET_KEY, "bearer"⟩ :=
  ⟨C8_token_ttl_defaults.1 ⟨some "a@x.com", some 1, some "Acme Corp", some "admin"⟩ 1800 7
     (by decide),
   C8_token_ttl_defaults.2.2.2.2 dbAcme "a@x.com" "password123" 7
     ⟨"a@x.com", hash_password "password123", 1, "Acme Corp", "admin", 0⟩ (by decide) (by decide)⟩

/-- C9: when the organization exists and the bearer token validates but its
sub email matches no admin record, the delete handler subscripts the None
returned by the admin lookup: the run dies with the uncaught TypeError, not
with any HTTPException of the error taxonomy, and the store is unchanged. -/
theorem C9_delete_missing_admin_crashes (db : DBState) (nm : String) (cur : CurrentAdmin)
    (h1 : (db.organizations.find? (fun o => o.organization_name == nm)).isSome = true)
    (h2 : db.admins.find? (fun a => a.email == cur.email) = none) :
    delete_organization db nm cur = (db, .error (.noneTypeSubscript "organization_name")) ∧
    ∀ s d, (PyError.noneTypeSubscript "organization_name") ≠ .http s d := by
  constructor
  · obtain ⟨o, ho⟩ := Option.isSome_iff_exists.mp h1
    simp [delete_organization, ho, h2]
  · intro s d hcon
    exact PyError.noConfusion hcon

theorem C9_witness :
    delete_organization dbAcme "Acme Corp" ⟨"ghost@x.com", 7⟩ =
      (dbAcme, .error (.noneTypeSubscript "organization_name")) :=
  (C9_delete_missing_admin_crashes dbAcme "Acme Corp" ⟨"ghost@x.com", 7⟩
    (by decide) (by decide)).1

/-- C10: the delete endpoint authorizes through the token sub claim and the
matched admin record current organization_name alone; the token org_id,
org_name and role claims are never compared against the target, so a token
minted before a rename still authorizes deleting the organization under the
name the admin record now carries. -/
theorem C10_delete_ignores_token_org (db : DBState) (nm email : String)
    (oid oid2 : Nat) (onm onm2 rl rl2 : Option String) (tokexp now : Nat)
    (org : OrgRecord) (admin : AdminRecord)
    (hexp : ¬ tokexp < now)
    (horg : db.organizations.find? (fun x => x.organization_name == nm) = some org)
    (hadmin : db.admins.find? (fun x => x.email == email) = some admin)
    (hmatch : admin.organization_name = nm) :
    (delete_endpoint db nm (.signed ⟨some email, some oid, onm, rl, tokexp⟩ SECRET_KEY) now).2 =
      .ok nm ∧
    delete_endpoint db nm (.signed ⟨some email, some oid, onm, rl, tokexp⟩ SECRET_KEY) now =
      delete_endpoint db nm (.signed ⟨some email, some oid2, onm2, rl2, tokexp⟩ SECRET_KEY) now := by
  have hcur : ∀ (o2 : Nat) (onmx rlx : Option String),
      get_current_admin (.signed ⟨some email, some o2, onmx, rlx, tokexp⟩ SECRET_KEY) now =
        .ok ⟨email, o2⟩ := by
    intro o2 onmx rlx
    simp [get_current_admin, jwt_decode, hexp]
  constructor
  · simp only [delete_endpoint, hcur]
    simp [delete_organization, horg, hadmin, hmatch]
  · simp only [delete_endpoint, hcur]
    rfl

theorem C10_witness :
    (delete_endpoint dbAcme "Acme Corp"
       (.signed ⟨some "a@x.com", some 99, some "Stale Name", some "admin", 500⟩ SECRET_KEY) 100).2 =
      .ok "Acme Corp" :=
  (C10_delete_ignores_token_org dbAcme "Acme Corp" "a@x.com" 99 42 (some "Stale Name")
    (some "Other") (some "admin") (some "x") 500 100
    ⟨1, "Acme Corp", "org_acme_corp", 0, 0, "active"⟩
    ⟨"a@x.com", hash_password "password123", 1, "Acme Corp", "admin", 0⟩
    (by decide) (by decide) (by decide) (by decide)).1

/-- C2 as amended: when an existing organization already owns the partition
name derived from the new organization name, the second create nonetheless
succeeds, because the handler checks only organization-name and admin-email
uniqueness; the two organization records then share one partition name. -/
theorem C2_colliding_create_succeeds (db : DBState) (n2 e2 pw2 : String) (now : Nat)
    (o : OrgRecord)
    (ho : o ∈ db.organizations)
    (hcoll : o.collection_name = sanitize_collection_name n2)
    (hname : db.organizations.find? (fun x => x.organization_name == n2) = none)
    (hemail : db.admins.find? (fun x => x.email == e2) = none) :
    (create_organization db n2 e2 pw2 now).2 =
      .ok ⟨db.nextId, n2, sanitize_collection_name n2, e2⟩ ∧
    ∃ o2 ∈ (create_organization db n2 e2 pw2 now).1.organizations,
      o2 ≠ o ∧ o2.collection_name = o.collection_name := by
  have hno : ∀ x ∈ db.organizations, (x.organization_name == n2) = false := by
    intro x hx
    have := List.find?_eq_none.mp hname x hx
    simpa using this
  constructor
  · simp [create_organization, hname, hemail]
  · refine ⟨⟨db.nextId, n2, sanitize_collection_name n2, now, now, "active"⟩, ?_, ?_, hcoll.symm⟩
    · simp [create_organization, hname, hemail, insertDocs]
    · intro hcon
      have : o.organization_name = n2 := by rw [← hcon]
      have h2 := hno o ho
      rw [this] at h2
      simp at h2

theorem C2_counterexample :
    (create_organization emptyDB "Acme Corp" "a@x.com" "password123" 0).2.isOk = true ∧
    sanitize_collection_name "Acme Corp" = sanitize_collection_name "acme-corp" ∧
    "Acme Corp" ≠ "acme-corp" ∧
    (create_organization dbAcme "acme-corp" "b@x.com" "password456" 1).2.isOk = true := by
  decide

theorem C2_witness :
    (create_organization dbAcme "acme-corp" "b@x.com" "password456" 1).2 =
      .ok ⟨2, "acme-corp", sanitize_collection_name "acme-corp", "b@x.com"⟩ :=
  (C2_colliding_create_succeeds dbAcme "acme-corp" "b@x.com" "password456" 1
    ⟨1, "Acme Corp", "org_acme_corp", 0, 0, "active"⟩
    (by decide) (by decide) (by decide) (by decide)).1

/-- When every check of the update handler passes, the run with crash point
k is the first k mutations applied to the pre-state. -/
theorem update_run_state {db : DBState} {oldn nn e pw : String} (now k : Nat)
    {o : OrgRecord} {a : AdminRecord}
    (ho : db.organizations.find? (fun x => x.organization_name == oldn) = some o)
    (ha : db.admins.find? (fun x => x.email == e) = some a)
    (hmatch : a.organization_name = oldn)
    (hv : verify_password pw a.password = true)
    (hconf : nn = oldn ∨ db.organizations.find? (fun x => x.organization_name == nn) = none) :
    update_organization_run db oldn nn e pw now k =
      (applySteps ((update_mutations db o oldn nn e now).take k) db,
       .ok ⟨oldn, nn, sanitize_collection_name nn⟩) := by
  rcases hconf with rfl | hconf
  · simp [update_organization_run, ho, ha, hmatch, hv]
  · simp [update_organization_run, ho, ha, hmatch, hv, hconf]

/-- C1 as amended: in the rename handler the copy of the records into the
new partition is the first mutation, before the registry record is touched
(so a registry-update failure after the copy leaves the old partition still
present and the old registry entry intact), the registry update completes
at the second mutation while the old partition still exists, and the old
partition is dropped only by the fourth and last mutation, after the
registry and admin updates. -/
theorem C1_rename_mutation_order (db : DBState) (oldn nn e pw : String) (now : Nat)
    (o : OrgRecord) (a : AdminRecord)
    (ho : db.organizations.find? (fun x => x.organization_name == oldn) = some o)
    (ha : db.admins.find? (fun x => x.email == e) = some a)
    (hmatch : a.organization_name = oldn)
    (hv : verify_password pw a.password = true)
    (hconf : nn = oldn ∨ db.organizations.find? (fun x => x.organization_name == nn) = none)
    (hne : sanitize_collection_name nn ≠ o.collection_name) :
    ((update_organization_run db oldn nn e pw now 1).1.organizations = db.organizations) ∧
    ((update_organization_run db oldn nn e pw now 1).1.admins = db.admins) ∧
    (getColl (update_organization_run db oldn nn e pw now 1).1 (sanitize_collection_name nn) =
       getColl db (sanitize_collection_name nn) ++ getColl db o.collection_name) ∧
    ((update_organization_run db oldn nn e pw now 1).1.collections o.collection_name =
       db.collections o.collection_name) ∧
    ((update_organization_run db oldn nn e pw now 2).1.organizations =
       (update_organization db oldn nn e pw now).1.organizations) ∧
    ((update_organization_run db oldn nn e pw now 2).1.collections o.collection_name =
       db.collections o.collection_name) ∧
    ((update_organization_run db oldn nn e pw now 3).1.collections o.collection_name =
       db.collections o.collection_name) ∧
    ((update_organization db oldn nn e pw now).1.collections o.collection_name = none) := by
  have hone : o.collection_name ≠ sanitize_collection_name nn := Ne.symm hne
  have h1 := update_run_state now 1 ho ha hmatch hv hconf
  have h2 := update_run_state now 2 ho ha hmatch hv hconf
  have h3 := update_run_state now 3 ho ha hmatch hv hconf
  have h4 := update_run_state now 4 ho ha hmatch hv hconf
  simp only [update_organization]
  rw [h1, h2, h3, h4]
  by_cases hdoc : (getColl db o.collection_name).isEmpty = true
  · have hnil : getColl db o.collection_name = [] := by simpa using hdoc
    have hnil2 : (db.collections o.collection_name).getD [] = [] := hnil
    simp [update_mutations, applySteps, List.take, hdoc, hnil, hnil2, insertDocs, dropColl,
      hone, hne, getColl]
  · simp only [Bool.not_eq_true] at hdoc
    have hcons : (db.collections o.collection_name).getD [] ≠ [] := by
      simpa [getColl] using hdoc
    simp [update_mutations, applySteps, List.take, hdoc, hcons, insertDocs, dropColl,
      hone, hne, getColl]

theorem C1_counterexample :
    ((update_organization_run dbAcme "Acme Corp" "Beta Inc" "a@x.com" "password123" 1 2).1.organizations.find?
        (fun x => x.organization_name == "Acme Corp") = none) ∧
    (((update_organization_run dbAcme "Acme Corp" "Beta Inc" "a@x.com" "password123" 1 2).1.organizations.find?
        (fun x => x.organization_name == "Beta Inc")).isSome = true) ∧
    (((update_organization_run dbAcme "Acme Corp" "Beta Inc" "a@x.com" "password123" 1 2).1.collections
        "org_acme_corp").isSome = true) ∧
    (((update_organization_run dbAcme "Acme Corp" "Beta Inc" "a@x.com" "password123" 1 3).1.collections
        "org_acme_corp").isSome = true) ∧
    ((update_organization dbAcme "Acme Corp" "Beta Inc" "a@x.com" "password123" 1).1.collections
        "org_acme_corp" = none) ∧
    ((update_organization dbAcme "Acme Corp" "Beta Inc" "a@x.com" "password123" 1).2.isOk = true) := by
  decide

theorem C1_witness :
    (update_organization_run dbAcme "Acme Corp" "Beta Inc" "a@x.com" "password123" 1 1).1.organizations =
      dbAcme.organizations ∧
    (update_organization_run dbAcme "Acme Corp" "Beta Inc" "a@x.com" "password123" 1 1).1.admins =
      dbAcme.admins ∧
    getColl (update_organization_run dbAcme "Acme Corp" "Beta Inc" "a@x.com" "password123" 1 1).1
        (sanitize_collection_name "Beta Inc") =
      getColl dbAcme (sanitize_collection_name "Beta Inc") ++ getColl dbAcme "org_acme_corp" ∧
    (update_organization_run dbAcme "Acme Corp" "Beta Inc" "a@x.com" "password123" 1 1).1.collections
        "org_acme_corp" = dbAcme.collections "org_acme_corp" ∧
    (update_organization_run dbAcme "Acme Corp" "Beta Inc" "a@x.com" "password123" 1 2).1.organizations =
      (update_organization dbAcme "Acme Corp" "Beta Inc" "a@x.com" "password123" 1).1.organizations ∧
    (update_organization_run dbAcme "Acme Corp" "Beta Inc" "a@x.com" "password123" 1 2).1.collections
        "org_acme_corp" = dbAcme.collections "org_acme_corp" ∧
    (update_organization_run dbAcme "Acme Corp" "Beta Inc" "a@x.com" "password123" 1 3).1.collections
        "org_acme_corp" = dbAcme.collections "org_acme_corp" ∧
    (update_organization dbAcme "Acme Corp" "Beta Inc" "a@x.com" "password123" 1).1.collections
        "org_acme_corp" = none :=
  C1_rename_mutation_order dbAcme "Acme Corp" "Beta Inc" "a@x.com" "password123" 1
    ⟨1, "Acme Corp", "org_acme_corp", 0, 0, "active"⟩
    ⟨"a@x.com", hash_password "password123", 1, "Acme Corp", "admin", 0⟩
    (by decide) (by decide) (by decide) (by decide) (Or.inr (by decide)) (by decide)

/-- C3 as amended: a successful rename moves exactly the pre-existing
records into the new partition and removes the old partition, provided the
derived new partition name is not the old one and no partition of that name
already exists; when the source partition was empty the insert is skipped
and the new partition is never created. -/
theorem C3_rename_moves_records (db : DBState) (oldn nn e pw : String) (now : Nat)
    (db' : DBState) (r : UpdateResp) (o : OrgRecord)
    (hok : update_organization db oldn nn e pw now = (db', .ok r))
    (ho : db.organizations.find? (fun x => x.organization_name == oldn) = some o)
    (hne : sanitize_collection_name nn ≠ o.collection_name)
    (hfresh : db.collections (sanitize_collection_name nn) = none) :
    getColl db' (sanitize_collection_name nn) = getColl db o.collection_name ∧
    db'.collections o.collection_name = none ∧
    (getColl db o.collection_name = [] →
       db'.collections (sanitize_collection_name nn) = none) := by
  have hone : o.collection_name ≠ sanitize_collection_name nn := Ne.symm hne
  obtain ⟨o2, a, ho2, ha, hmatch, hv, hconf, hdb, hr⟩ := update_ok_inv hok
  obtain rfl : o = o2 := by rw [ho] at ho2; exact Option.some.inj ho2
  subst hdb
  by_cases hdoc : (getColl db o.collection_name).isEmpty = true
  · have hnil : getColl db o.collection_name = [] := by simpa using hdoc
    have hnil2 : (db.collections o.collection_name).getD [] = [] := hnil
    simp [update_mutations, applySteps, List.take, hdoc, hnil, hnil2, insertDocs, dropColl,
      hone, hne, getColl, hfresh]
  · simp only [Bool.not_eq_true] at hdoc
    have hcons : (db.collections o.collection_name).getD [] ≠ [] := by
      simpa [getColl] using hdoc
    refine ⟨?_, ?_, ?_⟩
    · simp [update_mutations, applySteps, List.take, hdoc, hcons, insertDocs, dropColl,
        hone, hne, getColl, hfresh]
    · simp [update_mutations, applySteps, List.take, hdoc, hcons, insertDocs, dropColl,
        hone, hne, getColl]
    · intro hnil
      rw [hnil] at hdoc
      simp at hdoc

theorem C3_counterexample :
    ((update_organization dbAcmeBeta "Beta" "Acme-Corp" "b@x.com" "password456" 2).2.isOk = true) ∧
    (getColl dbAcmeBeta "org_beta" = [Doc.init 1]) ∧
    (sanitize_collection_name "Acme-Corp" = "org_acme_corp") ∧
    (getColl (update_organization dbAcmeBeta "Beta" "Acme-Corp" "b@x.com" "password456" 2).1
        "org_acme_corp" = [Doc.init 0, Doc.init 1]) ∧
    ([Doc.init 0, Doc.init 1] ≠ [Doc.init 1]) := by
  decide

theorem C3_witness :
    getColl (update_organization dbAcme "Acme Corp" "Beta Inc" "a@x.com" "password123" 1).1
        (sanitize_collection_name "Beta Inc") = getColl dbAcme "org_acme_corp" ∧
    (update_organization dbAcme "Acme Corp" "Beta Inc" "a@x.com" "password123" 1).1.collections
        "org_acme_corp" = none ∧
    (getColl dbAcme "org_acme_corp" = [] →
       (update_organization dbAcme "Acme Corp" "Beta Inc" "a@x.com" "password123" 1).1.collections
         (sanitize_collection_name "Beta Inc") = none) :=
  C3_rename_moves_records dbAcme "Acme Corp" "Beta Inc" "a@x.com" "password123" 1
    (update_organization dbAcme "Acme Corp" "Beta Inc" "a@x.com" "password123" 1).1
    ⟨"Acme Corp", "Beta Inc", sanitize_collection_name "Beta Inc"⟩
    ⟨1, "Acme Corp", "org_acme_corp", 0, 0, "active"⟩
    rfl (by decide) (by decide) (by decide)

theorem nodup_append_singleton {α : Type} {l : List α} {a : α}
    (h : l.Nodup) (ha : a ∉ l) : (l ++ [a]).Nodup := by
  rw [List.nodup_append]
  refine ⟨h, by simp, ?_⟩
  intro x hx hmem
  rw [List.mem_singleton] at hmem
  exact ha (hmem ▸ hx)

/-- A successful create preserves the reachable-state invariant. -/
theorem goodState_create {db : DBState} {n e pw : String} {now : Nat}
    {db' : DBState} {r : CreateResp} (hg : GoodState db)
    (h : create_organization db n e pw now = (db', .ok r)) : GoodState db' := by
  obtain ⟨hn, hoid, hbound, he, han, hsync⟩ := hg
  obtain ⟨hname, hemail, hdb, -⟩ := create_ok_inv h
  have hnameNe : ∀ x ∈ db.organizations, x.organization_name ≠ n := by
    intro x hx hcon
    have h2 := List.find?_eq_none.mp hname x hx
    rw [hcon] at h2
    simp at h2
  have hemailNe : ∀ x ∈ db.admins, x.email ≠ e := by
    intro x hx hcon
    have h2 := List.find?_eq_none.mp hemail x hx
    rw [hcon] at h2
    simp at h2
  have hadminName : ∀ x ∈ db.admins, x.organization_name ≠ n := by
    intro x hx hcon
    obtain ⟨o2, ho2, _, hname2⟩ := hsync x hx
    exact hnameNe o2 ho2 (hname2.trans hcon)
  subst hdb
  have neworgDef : OrgRecord.mk db.nextId n (sanitize_collection_name n) now now "active" =
      ⟨db.nextId, n, sanitize_collection_name n, now, now, "active"⟩ := rfl
  refine ⟨?_, ?_, ?_, ?_, ?_, ?_⟩
  · show ((db.organizations ++
        [(⟨db.nextId, n, sanitize_collection_name n, now, now, "active"⟩ : OrgRecord)]).map
        (fun x => x.organization_name)).Nodup
    rw [List.map_append]
    refine nodup_append_singleton hn ?_
    intro hmem
    obtain ⟨x, hx, hxn⟩ := List.mem_map.mp hmem
    exact hnameNe x hx hxn
  · show ((db.organizations ++
        [(⟨db.nextId, n, sanitize_collection_name n, now, now, "active"⟩ : OrgRecord)]).map
        (fun x => x.oid)).Nodup
    rw [List.map_append]
    refine nodup_append_singleton hoid ?_
    intro hmem
    obtain ⟨x, hx, hxn⟩ := List.mem_map.mp hmem
    exact absurd (hxn ▸ hbound x hx) (lt_irrefl _)
  · show ∀ x ∈ db.organizations ++
        [(⟨db.nextId, n, sanitize_collection_name n, now, now, "active"⟩ : OrgRecord)],
        x.oid < db.nextId + 1
    intro x hx
    rcases List.mem_append.mp hx with hx | hx
    · exact Nat.lt_trans (hbound x hx) (Nat.lt_succ_self _)
    · rw [List.mem_singleton] at hx
      rw [hx]
      exact Nat.lt_succ_self _
  · show ((db.admins ++ [(⟨e, hash_password pw, db.nextId, n, "admin", now⟩ : AdminRecord)]).map
        (fun x => x.email)).Nodup
    rw [List.map_append]
    refine nodup_append_singleton he ?_
    intro hmem
    obtain ⟨x, hx, hxn⟩ := List.mem_map.mp hmem
    exact hemailNe x hx hxn
  · show ((db.admins ++ [(⟨e, hash_password pw, db.nextId, n, "admin", now⟩ : AdminRecord)]).map
        (fun x => x.organization_name)).Nodup
    rw [List.map_append]
    refine nodup_append_singleton han ?_
    intro hmem
    obtain ⟨x, hx, hxn⟩ := List.mem_map.mp hmem
    exact hadminName x hx hxn
  · intro a2 ha2
    rcases List.mem_append.mp ha2 with ha2 | ha2
    · obtain ⟨o2, ho2, h1, h2⟩ := hsync a2 ha2
      exact ⟨o2, List.mem_append_left _ ho2, h1, h2⟩
    · rw [List.mem_singleton] at ha2
      refine ⟨⟨db.nextId, n, sanitize_collection_name n, now, now, "active"⟩,
        List.mem_append_right _ (List.mem_singleton_self _), ?_, ?_⟩
      · rw [ha2]
      · rw [ha2]

/-- Inversion of a successful delete: the organization was found, the admin
was found and owns it, and the final state is the three deletions applied. -/
theorem delete_ok_inv {db : DBState} {nm : String} {cur : CurrentAdmin}
    {db' : DBState} {r : String}
    (h : delete_organization db nm cur = (db', .ok r)) :
    ∃ o a, db.organizations.find? (fun x => x.organization_name == nm) = some o ∧
      db.admins.find? (fun x => x.email == cur.email) = some a ∧
      a.organization_name = nm ∧
      db' = { dropColl db o.collection_name with
                organizations := eraseFirst (fun x => x.organization_name == nm) db.organizations,
                admins := db.admins.filter (fun x => x.organization_name != nm) } ∧
      r = nm := by
  unfold delete_organization at h
  cases h1 : db.organizations.find? (fun x => x.organization_name == nm) with
  | none => rw [h1] at h; simp at h
  | some o =>
    rw [h1] at h
    cases h2 : db.admins.find? (fun x => x.email == cur.email) with
    | none => rw [h2] at h; simp at h
    | some a =>
      rw [h2] at h
      simp only [] at h
      split_ifs at h with h3
      · simp at h
      · rw [Prod.ext_iff] at h
        obtain ⟨hdb, hr⟩ := h
        simp only [Except.ok.injEq] at hr
        exact ⟨o, a, rfl, rfl, not_not.mp h3, hdb.symm, hr.symm⟩

/-- A successful delete preserves the reachable-state invariant. -/
theorem goodState_delete {db : DBState} {nm : String} {cur : CurrentAdmin}
    {db' : DBState} {r : String} (hg : GoodState db)
    (h : delete_organization db nm cur = (db', .ok r)) : GoodState db' := by
  obtain ⟨hn, hoid, hbound, he, han, hsync⟩ := hg
  obtain ⟨o, a, ho, ha, hmatch, hdb, -⟩ := delete_ok_inv h
  obtain ⟨l1, l2, hosplit, hl1⟩ := find?_decomp ho
  have honame : o.organization_name = nm := by simpa using List.find?_some ho
  have hobeq : (o.organization_name == nm) = true := by simp [honame]
  have herase : eraseFirst (fun x => x.organization_name == nm) db.organizations = l1 ++ l2 := by
    rw [hosplit]; exact eraseFirst_append l1 o l2 hl1 hobeq
  have hmemsub : ∀ x ∈ l1 ++ l2, x ∈ db.organizations := by
    intro x hx
    rw [hosplit]
    rcases List.mem_append.mp hx with hx | hx
    · exact List.mem_append_left _ hx
    · exact List.mem_append_right _ (List.mem_cons_of_mem o hx)
  subst hdb
  refine ⟨?_, ?_, ?_, ?_, ?_, ?_⟩
  · show ((eraseFirst (fun x => x.organization_name == nm) db.organizations).map
        (fun x => x.organization_name)).Nodup
    rw [herase]
    have h2 : ((l1 ++ o :: l2).map (fun x => x.organization_name)).Nodup := hosplit ▸ hn
    rw [List.map_append, List.map_cons, List.nodup_middle] at h2
    rw [List.map_append]
    exact h2.of_cons
  · show ((eraseFirst (fun x => x.organization_name == nm) db.organizations).map
        (fun x => x.oid)).Nodup
    rw [herase]
    have h2 : ((l1 ++ o :: l2).map (fun x => x.oid)).Nodup := hosplit ▸ hoid
    rw [List.map_append, List.map_cons, List.nodup_middle] at h2
    rw [List.map_append]
    exact h2.of_cons
  · show ∀ x ∈ eraseFirst (fun x => x.organization_name == nm) db.organizations,
        x.oid < db.nextId
    rw [herase]
    exact fun x hx => hbound x (hmemsub x hx)
  · show ((db.admins.filter (fun x => x.organization_name != nm)).map
        (fun x => x.email)).Nodup
    exact he.sublist (List.Sublist.map _ (List.filter_sublist _))
  · show ((db.admins.filter (fun x => x.organization_name != nm)).map
        (fun x => x.organization_name)).Nodup
    exact han.sublist (List.Sublist.map _ (List.filter_sublist _))
  · intro a2 ha2
    rw [List.mem_filter] at ha2
    obtain ⟨ha2m, hq⟩ := ha2
    have hq2 : a2.organization_name ≠ nm := by simpa using hq
    obtain ⟨o2, ho2, h1, h2⟩ := hsync a2 ha2m
    have ho2ne : o2 ≠ o := by
      intro hcon
      rw [hcon, honame] at h2
      exact hq2 h2.symm
    have ho2mem : o2 ∈ l1 ++ l2 := by
      rw [hosplit] at ho2
      rcases List.mem_append.mp ho2 with hx | hx
      · exact List.mem_append_left _ hx
      · rcases List.mem_cons.mp hx with hx | hx
        · exact absurd hx ho2ne
        · exact List.mem_append_right _ hx
    refine ⟨o2, ?_, h1, h2⟩
    show o2 ∈ eraseFirst (fun x => x.organization_name == nm) db.organizations
    rw [herase]
    exact ho2mem

/-- A successful rename preserves the reachable-state invariant; in
particular the admin record updated through the request email is the one
admin of the renamed organization, so the sync property survives. -/
theorem goodState_update {db : DBState} {oldn nn e pw : String} {now : Nat}
    {db' : DBState} {r : UpdateResp} (hg : GoodState db)
    (h : update_organization db oldn nn e pw now = (db', .ok r)) : GoodState db' := by
  obtain ⟨hn, hoid, hbound, he, han, hsync⟩ := hg
  obtain ⟨o, a, ho, ha, hmatch, hv, hconf, hdb, -⟩ := update_ok_inv h
  obtain ⟨l1, l2, hosplit, hl1⟩ := find?_decomp ho
  obtain ⟨m1, m2, hasplit, hm1⟩ := find?_decomp ha
  have honame : o.organization_name = oldn := by simpa using List.find?_some ho
  have hobeq : (o.organization_name == oldn) = true := by simp [honame]
  have haemail : a.email = e := by simpa using List.find?_some ha
  have habeq : (a.email == e) = true := by simp [haemail]
  have ho_mem : o ∈ db.organizations := List.mem_of_find?_eq_some ho
  have ha_mem : a ∈ db.admins := List.mem_of_find?_eq_some ha
  have hnn_orgs : ∀ x ∈ db.organizations, x ≠ o → x.organization_name ≠ nn := by
    intro x hx hxo hcon
    rcases hconf with rfl | hnone
    · exact hxo (nodup_map_inj hn x hx o ho_mem (by rw [hcon, honame]))
    · have h2 := List.find?_eq_none.mp hnone x hx
      rw [hcon] at h2
      simp at h2
  have hnn_admins : ∀ x ∈ db.admins, x ≠ a → x.organization_name ≠ nn := by
    intro x hx hxa hcon
    rcases hconf with rfl | hnone
    · exact hxa (nodup_map_inj han x hx a ha_mem (by rw [hcon, hmatch]))
    · obtain ⟨o2, ho2, -, h2⟩ := hsync x hx
      have h3 := List.find?_eq_none.mp hnone o2 ho2
      rw [h2, hcon] at h3
      simp at h3
  have forg0 : (applySteps ((update_mutations db o oldn nn e now).take 4) db).organizations =
      updateFirst (fun x => x.organization_name == oldn)
        (fun o2 => { o2 with organization_name := nn, collection_name := sanitize_collection_name nn, updated_at := now })
        db.organizations := by
    by_cases hdoc : (getColl db o.collection_name).isEmpty = true <;>
      simp [update_mutations, applySteps, List.take, hdoc, insertDocs, dropColl]
  have fadm0 : (applySteps ((update_mutations db o oldn nn e now).take 4) db).admins =
      updateFirst (fun x => x.email == e)
        (fun a2 => { a2 with organization_name := nn }) db.admins := by
    by_cases hdoc : (getColl db o.collection_name).isEmpty = true <;>
      simp [update_mutations, applySteps, List.take, hdoc, insertDocs, dropColl]
  have fnext0 : (applySteps ((update_mutations db o oldn nn e now).take 4) db).nextId =
      db.nextId := by
    by_cases hdoc : (getColl db o.collection_name).isEmpty = true <;>
      simp [update_mutations, applySteps, List.take, hdoc, insertDocs, dropColl]
  have forg : db'.organizations =
      l1 ++ ({ o with organization_name := nn, collection_name := sanitize_collection_name nn, updated_at := now } : OrgRecord) :: l2 := by
    rw [hdb, forg0, hosplit]
    exact updateFirst_append _ l1 o l2 hl1 hobeq
  have fadm : db'.admins = m1 ++ ({ a with organization_name := nn } : AdminRecord) :: m2 := by
    rw [hdb, fadm0, hasplit]
    exact updateFirst_append _ m1 a m2 hm1 habeq
  have fnext : db'.nextId = db.nextId := by rw [hdb]; exact fnext0
  have hoid2 : db'.organizations.map (fun x => x.oid) =
      db.organizations.map (fun x => x.oid) := by
    rw [hdb, forg0]
    refine map_updateFirst _ ?_ _
    intro x
    rfl
  have hem2 : db'.admins.map (fun x => x.email) = db.admins.map (fun x => x.email) := by
    rw [hdb, fadm0]
    refine map_updateFirst _ ?_ _
    intro x
    rfl
  have hns : ((l1 ++ o :: l2).map (fun x => x.organization_name)).Nodup := hosplit ▸ hn
  rw [List.map_append, List.map_cons, List.nodup_middle, List.nodup_cons] at hns
  obtain ⟨hn_notin, hn_rest⟩ := hns
  have hans : ((m1 ++ a :: m2).map (fun x => x.organization_name)).Nodup := hasplit ▸ han
  rw [List.map_append, List.map_cons, List.nodup_middle, List.nodup_cons] at hans
  obtain ⟨han_notin, han_rest⟩ := hans
  have hes : ((m1 ++ a :: m2).map (fun x => x.email)).Nodup := hasplit ▸ he
  rw [List.map_append, List.map_cons, List.nodup_middle, List.nodup_cons] at hes
  obtain ⟨he_notin, he_rest⟩ := hes
  refine ⟨?_, ?_, ?_, ?_, ?_, ?_⟩
  · rw [forg, List.map_append, List.map_cons, List.nodup_middle, List.nodup_cons]
    constructor
    · show nn ∉ l1.map (fun x => x.organization_name) ++ l2.map (fun x => x.organization_name)
      intro hmem
      rcases List.mem_append.mp hmem with hmem2 | hmem2
      · obtain ⟨x, hx, hxn⟩ := List.mem_map.mp hmem2
        have hxdb : x ∈ db.organizations := by
          rw [hosplit]; exact List.mem_append_left _ hx
        by_cases hxo : x = o
        · apply hn_notin
          rw [← hxo]
          exact List.mem_append_left _ (List.mem_map_of_mem _ hx)
        · exact hnn_orgs x hxdb hxo hxn
      · obtain ⟨x, hx, hxn⟩ := List.mem_map.mp hmem2
        have hxdb : x ∈ db.organizations := by
          rw [hosplit]; exact List.mem_append_right _ (List.mem_cons_of_mem o hx)
        by_cases hxo : x = o
        · apply hn_notin
          rw [← hxo]
          exact List.mem_append_right _ (List.mem_map_of_mem _ hx)
        · exact hnn_orgs x hxdb hxo hxn
    · exact hn_rest
  · rw [hoid2]
    exact hoid
  · intro x hx
    rw [fnext]
    rw [forg] at hx
    rcases List.mem_append.mp hx with hx | hx
    · exact hbound x (by rw [hosplit]; exact List.mem_append_left _ hx)
    · rcases List.mem_cons.mp hx with hx | hx
      · rw [hx]
        exact hbound o ho_mem
      · exact hbound x (by rw [hosplit]; exact List.mem_append_right _ (List.mem_cons_of_mem o hx))
  · rw [hem2]
    exact he
  · rw [fadm, List.map_append, List.map_cons, List.nodup_middle, List.nodup_cons]
    constructor
    · show nn ∉ m1.map (fun x => x.organization_name) ++ m2.map (fun x => x.organization_name)
      intro hmem
      rcases List.mem_append.mp hmem with hmem2 | hmem2
      · obtain ⟨x, hx, hxn⟩ := List.mem_map.mp hmem2
        have hxdb : x ∈ db.admins := by
          rw [hasplit]; exact List.mem_append_left _ hx
        by_cases hxa : x = a
        · apply han_notin
          rw [← hxa]
          exact List.mem_append_left _ (List.mem_map_of_mem _ hx)
        · exact hnn_admins x hxdb hxa hxn
      · obtain ⟨x, hx, hxn⟩ := List.mem_map.mp hmem2
        have hxdb : x ∈ db.admins := by
          rw [hasplit]; exact List.mem_append_right _ (List.mem_cons_of_mem a hx)
        by_cases hxa : x = a
        · apply han_notin
          rw [← hxa]
          exact List.mem_append_right _ (List.mem_map_of_mem _ hx)
        · exact hnn_admins x hxdb hxa hxn
    · exact han_rest
  · intro a2 ha2
    rw [fadm] at ha2
    rcases List.mem_append.mp ha2 with ha2m | ha2m
    · have ha2db : a2 ∈ db.admins := by
        rw [hasplit]; exact List.mem_append_left _ ha2m
      have ha2ne : a2.organization_name ≠ oldn := by
        intro hcon
        have heq : a2 = a := nodup_map_inj han a2 ha2db a ha_mem (by rw [hcon, hmatch])
        have hf := hm1 a2 ha2m
        rw [heq, habeq] at hf
        simp at hf
      obtain ⟨o2, ho2, h1, h2⟩ := hsync a2 ha2db
      have ho2ne : o2 ≠ o := fun hcon => ha2ne (by rw [← h2, hcon, honame])
      refine ⟨o2, ?_, h1, h2⟩
      rw [forg]
      rw [hosplit] at ho2
      rcases List.mem_append.mp ho2 with hx | hx
      · exact List.mem_append_left _ hx
      · rcases List.mem_cons.mp hx with hx | hx
        · exact absurd hx ho2ne
        · exact List.mem_append_right _ (List.mem_cons_of_mem _ hx)
    · rcases List.mem_cons.mp ha2m with ha2m | ha2m
      · obtain ⟨o3, ho3, h1, h2⟩ := hsync a ha_mem
        have ho3o : o3 = o := nodup_map_inj hn o3 ho3 o ho_mem (by rw [h2, hmatch, honame])
        refine ⟨({ o with organization_name := nn, collection_name := sanitize_collection_name nn, updated_at := now } : OrgRecord), ?_, ?_, ?_⟩
        · rw [forg]
          exact List.mem_append_right _ (List.mem_cons_self _ _)
        · rw [ha2m]
          show o.oid = a.organization_id
          rw [← ho3o]
          exact h1
        · rw [ha2m]
      · have ha2db : a2 ∈ db.admins := by
          rw [hasplit]; exact List.mem_append_right _ (List.mem_cons_of_mem a ha2m)
        have ha2ne : a2.organization_name ≠ oldn := by
          intro hcon
          have heq : a2 = a := nodup_map_inj han a2 ha2db a ha_mem (by rw [hcon, hmatch])
          apply he_notin
          exact List.mem_append_right _ (List.mem_map_of_mem _ (heq ▸ ha2m))
        obtain ⟨o2, ho2, h1, h2⟩ := hsync a2 ha2db
        have ho2ne : o2 ≠ o := fun hcon => ha2ne (by rw [← h2, hcon, honame])
        refine ⟨o2, ?_, h1, h2⟩
        rw [forg]
        rw [hosplit] at ho2
        rcases List.mem_append.mp ho2 with hx | hx
        · exact List.mem_append_left _ hx
        · rcases List.mem_cons.mp hx with hx | hx
          · exact absurd hx ho2ne
          · exact List.mem_append_right _ (List.mem_cons_of_mem _ hx)

/-- C5: on a reachable store state, every completed create, rename and
delete operation preserves the full store invariant, and in particular the
property that every admin record organization_name equals the current
organization_name of the organization record its organization_id
references. -/
theorem C5_admin_org_name_sync (db : DBState) (hg : GoodState db) :
    (∀ n e pw now db' r, create_organization db n e pw now = (db', .ok r) →
       GoodState db' ∧ AdminOrgSync db') ∧
    (∀ oldn nn e pw now db' r, update_organization db oldn nn e pw now = (db', .ok r) →
       GoodState db' ∧ AdminOrgSync db') ∧
    (∀ nm cur db' r, delete_organization db nm cur = (db', .ok r) →
       GoodState db' ∧ AdminOrgSync db') := by
  refine ⟨?_, ?_, ?_⟩
  · intro n e pw now db' r h
    have h2 := goodState_create hg h
    exact ⟨h2, h2.2.2.2.2.2⟩
  · intro oldn nn e pw now db' r h
    have h2 := goodState_update hg h
    exact ⟨h2, h2.2.2.2.2.2⟩
  · intro nm cur db' r h
    have h2 := goodState_delete hg h
    exact ⟨h2, h2.2.2.2.2.2⟩

theorem C5_witness : GoodState dbAcme ∧ AdminOrgSync dbAcme :=
  (C5_admin_org_name_sync emptyDB
      ⟨List.nodup_nil, List.nodup_nil, (by intro x hx; cases hx), List.nodup_nil,
       List.nodup_nil, (by intro x hx; cases hx)⟩).1
    "Acme Corp" "a@x.com" "password123" 0 dbAcme
    ⟨1, "Acme Corp", "org_acme_corp", "a@x.com"⟩ rfl

end OrgService
